import Mathlib

/-!
Verification development for the expense-bot core (`bot/utils.py`):
the amount parser `get_amount_and_currency`, the command parser
`decode_expense_params`, the record builder `new_expense`, and the report
aggregator `show_expenses`.

Modelling conventions:
* Python `Decimal` values are modelled by `PyDecimal` (an exact rational, or
  the special values NaN / signed infinity that `Decimal(str)` also accepts).
* Fallible code is modelled explicitly: `PyResult` distinguishes a normal
  return, a raised `ParameterError` (caught at the command boundary), and an
  uncaught decimal fault (`decimal.InvalidOperation` from multiplying a
  signaling NaN or an infinity by zero — the source's `try` covers only the
  `Decimal` construction); `decimal.DivisionByZero` in the report path is
  `Option`.  Decimal context limits (28-digit precision, exponent bounds)
  are abstracted away by the exact-rational representation.
* The currency table `CURRENCY` and the exchange-rate store live in
  `expenses/models.py`, outside the parser module; they are passed in as
  parameters: an ordered association list `tbl : List (String × String)` of
  (code, symbol) pairs, and a lookup `rates : String → Option ExRate`
  standing for `ExchangeRate.objects.filter(currency=key).last()`.
* String primitives (`replace`, `split`, `join`, `strip`) are implemented by
  structural recursion on `List Char` with the semantics of the Python
  methods the source calls.
-/

/-- A calendar date, as produced by `datetime.date`. -/
structure Date where
  year : Nat
  month : Nat
  day : Nat
deriving DecidableEq, Repr

/-- Value of a Python `Decimal`: an exact rational, a quiet NaN, a signaling
NaN, or a signed infinity (`Decimal(str)` accepts `nan`, `snan`, `inf`,
`infinity` with optional sign; quiet and signaling NaN behave differently
under arithmetic). -/
inductive PyDecimal where
  | fin (q : ℚ)
  | nan
  | snan
  | inf (neg : Bool)
deriving DecidableEq, Repr

/-- Multiplication of a parsed `Decimal` by a finite rate, as in
`original_amount * exchange_rate.rate`.  A signaling-NaN operand, or an
infinity multiplied by a zero rate, signals `InvalidOperation`, which the
default decimal context raises (`none`); a quiet NaN propagates quietly. -/
def pyDecMul (d : PyDecimal) (r : ℚ) : Option PyDecimal :=
  match d with
  | .fin q => some (.fin (q * r))
  | .nan => some .nan
  | .snan => none
  | .inf n => if r = 0 then none else if r < 0 then some (.inf (!n)) else some (.inf n)

/-- One step list of `str.replace(old, new)` (all non-overlapping occurrences,
left to right), with explicit fuel so the recursion is structural. -/
def replGo (pat rep : List Char) : Nat → List Char → List Char
  | _, [] => []
  | 0, cs => cs
  | fuel + 1, c :: rest =>
      if pat.isPrefixOf (c :: rest) then
        rep ++ replGo pat rep fuel (List.drop (pat.length - 1) rest)
      else
        c :: replGo pat rep fuel rest

/-- Python `s.replace(pat, rep)` for the uses in the source: every call site
passes `rep = ''` or a non-empty `pat`, and `''.replace('', '') == ''`,
`s.replace('', '') == s`, so the empty-pattern case is the identity. -/
def pyReplace (s pat rep : String) : String :=
  if pat = "" then s else ⟨replGo pat.data rep.data s.data.length s.data⟩

/-- Python `s.split(sep)` for a one-character separator, on character lists:
`chSplit sep '' = ['']`, and k separators yield k+1 pieces. -/
def chSplit (sep : Char) : List Char → List (List Char)
  | [] => [[]]
  | c :: rest =>
      match chSplit sep rest with
      | [] => if c = sep then [[], []] else [[c]]
      | h :: t => if c = sep then [] :: h :: t else (c :: h) :: t

/-- Python `s.split(sep)` for a one-character separator. -/
def pySplit (sep : Char) (s : String) : List String :=
  (chSplit sep s.data).map fun cs => ⟨cs⟩

/-- Python `sep.join(strs)`. -/
def pyJoin (sep : String) : List String → String
  | [] => ""
  | [s] => s
  | s :: rest => s ++ sep ++ pyJoin sep rest

/-- The code points `str.isspace()` holds of — the whitespace that Python
`str.strip()` (and `Decimal(str)`'s surrounding-whitespace stripping)
removes. -/
def pyWsChar (c : Char) : Bool :=
  [9, 10, 11, 12, 13, 28, 29, 30, 31, 32, 0x85, 0xa0, 0x1680,
   0x2000, 0x2001, 0x2002, 0x2003, 0x2004, 0x2005, 0x2006, 0x2007,
   0x2008, 0x2009, 0x200a, 0x2028, 0x2029, 0x202f, 0x205f, 0x3000].contains c.toNat

/-- Python `s.strip()` on character lists (whitespace trimming done by
`Decimal(str)` before matching its numeric grammar). -/
def trimWs (cs : List Char) : List Char :=
  ((cs.dropWhile pyWsChar).reverse.dropWhile pyWsChar).reverse

/-- First code point of every aligned block of ten Unicode decimal digits
(category Nd); within a block the digit value is the offset.  `Decimal(str)`
accepts any of these as digits (`Decimal('١٢') == 12`). -/
def ndBlockStarts : List Nat :=
  [48, 1632, 1776, 1984, 2406, 2534, 2662, 2790, 2918, 3046, 3174, 3302,
   3430, 3558, 3664, 3792, 3872, 4160, 4240, 6112, 6160, 6470, 6608, 6784,
   6800, 6992, 7088, 7232, 7248, 42528, 43216, 43264, 43472, 43504, 43600,
   44016, 65296, 66720, 68912, 69734, 69872, 69942, 70096, 70384, 70736,
   70864, 71248, 71360, 71472, 71904, 72016, 72784, 73040, 73120, 92768,
   92864, 93008, 120782, 120792, 120802, 120812, 120822, 123200, 123632,
   125264, 130032]

/-- Decimal value of a Unicode decimal digit, `none` for non-digits. -/
def pyDigitVal? (c : Char) : Option Nat :=
  ndBlockStarts.findSome? fun b =>
    if b ≤ c.toNat ∧ c.toNat < b + 10 then some (c.toNat - b) else none

/-- Whether a character is a Unicode decimal digit (what `\d` matches in the
`Decimal(str)` grammar). -/
def pyDigit (c : Char) : Bool := (pyDigitVal? c).isSome

/-- Decimal value of a digit character (0 for non-digits, never hit). -/
def pyDigitVal (c : Char) : Nat := (pyDigitVal? c).getD 0

/-- Characters that can occur in a string accepted by the `Decimal(str)`
grammar (after trimming): sign, digits, point, exponent marker, and the
letters of `Infinity` / `sNaN` in either case.  Pre-filtering on this set
leaves the accepted language unchanged, since every branch of the grammar
consumes only such characters. -/
def decAllowedChar (c : Char) : Bool :=
  pyDigit c ||
    ['+', '-', '.', 'e', 'E', 'i', 'n', 'f', 't', 'y', 'a', 's',
     'I', 'N', 'F', 'T', 'Y', 'A', 'S'].contains c

/-- Numeric value of a digit string, most significant first (digits may be
any Unicode decimal digits, as in `int()`). -/
def digitsToNat (ds : List Char) : Nat :=
  ds.foldl (fun a c => a * 10 + pyDigitVal c) 0

/-- Exponent part of the `Decimal` grammar, after the `E` marker:
an optional sign followed by one or more digits, ending the string. -/
def parseExpPart (cs : List Char) : Option Int :=
  match cs with
  | '+' :: t => if t ≠ [] ∧ t.all pyDigit then some (digitsToNat t) else none
  | '-' :: t => if t ≠ [] ∧ t.all pyDigit then some (-(digitsToNat t : Int)) else none
  | t => if t ≠ [] ∧ t.all pyDigit then some (digitsToNat t) else none

/-- Finite-number branch of the `Decimal(str)` grammar
`(?=\d|\.\d) \d* (\.\d*)? (E[-+]?\d+)?`, yielding the exact rational value. -/
def parseNumericCore (cs : List Char) : Option ℚ :=
  let ip := cs.takeWhile pyDigit
  let rest1 := cs.dropWhile pyDigit
  let fp := match rest1 with
    | '.' :: t => t.takeWhile pyDigit
    | _ => []
  let rest2 := match rest1 with
    | '.' :: t => t.dropWhile pyDigit
    | _ => rest1
  if ip = [] ∧ fp = [] then none
  else
    match rest2 with
    | [] => some ((digitsToNat (ip ++ fp) : ℚ) * (10 : ℚ) ^ (0 - (fp.length : Int)))
    | c :: t =>
        if c = 'e' ∨ c = 'E' then
          match parseExpPart t with
          | some ex => some ((digitsToNat (ip ++ fp) : ℚ) * (10 : ℚ) ^ (ex - (fp.length : Int)))
          | none => none
        else none

/-- NaN branch of the `Decimal(str)` grammar: `NaN` plus an optional digit
diagnostic, on an already lower-cased character list. -/
def isNanCore (low : List Char) : Bool :=
  decide (low.take 3 = ['n', 'a', 'n']) && (low.drop 3).all pyDigit

/-- Sign-free part of `Decimal(str)`: the `Infinity`, `NaN`/`sNaN` and
numeric branches (specials are case-insensitive; the `s` prefix makes the
NaN signaling). -/
def parseUnsignedPyDec (cs : List Char) (neg : Bool) : Option PyDecimal :=
  let low := cs.map Char.toLower
  if low = ['i', 'n', 'f'] ∨ low = ['i', 'n', 'f', 'i', 'n', 'i', 't', 'y'] then
    some (.inf neg)
  else if isNanCore low then
    some .nan
  else if low.head? = some 's' ∧ isNanCore low.tail then
    some .snan
  else
    match parseNumericCore cs with
    | some q => some (.fin (if neg then -q else q))
    | none => none

/-- The `Decimal(str)` constructor: strip surrounding whitespace, then
remove every underscore (`Decimal('1_0') == 10`, `Decimal('s_nan')` is a
signaling NaN), then take an optional sign and match the unsigned grammar;
`none` models `decimal.InvalidOperation`. -/
def parsePyDecimal (s : String) : Option PyDecimal :=
  let cs := (trimWs s.data).filter fun c => c ≠ '_'
  if cs.all decAllowedChar then
    match cs with
    | '+' :: t => parseUnsignedPyDec t false
    | '-' :: t => parseUnsignedPyDec t true
    | t => parseUnsignedPyDec t false
  else none

/-- Python `s.startswith(p)` (on the underlying characters). -/
def strStarts (s p : String) : Bool := p.data.isPrefixOf s.data

/-- Python `s.endswith(p)` (on the underlying characters). -/
def strEnds (s p : String) : Bool := p.data.reverse.isPrefixOf s.data.reverse

/-- Outcome of running a piece of the Python command path: a normal return,
a raised `ParameterError` carrying its user-facing message (caught at the
command boundary), or an uncaught decimal fault (`decimal.InvalidOperation`
escaping the `try` that guards only the `Decimal` construction). -/
inductive PyResult (α : Type) where
  | ok (a : α)
  | perr (e : String)
  | fault
deriving DecidableEq, Repr

/-- An `ExchangeRate` row: currency code, conversion rate, effective date. -/
structure ExRate where
  currency : String
  rate : ℚ
  date : Date
deriving DecidableEq, Repr

/-- The `for key, value in CURRENCY.items(): if raw_amount.startswith((key,
value)) or raw_amount.endswith((key, value)): ... break` scan: the first
table entry whose code or symbol is a prefix or suffix of the token. -/
def detectCurrency (tbl : List (String × String)) (raw : String) : Option (String × String) :=
  tbl.find? fun p =>
    strStarts raw p.1 || strStarts raw p.2 || strEnds raw p.1 || strEnds raw p.2

/-- Leading text of the invalid-amount message (`utils.py` lines 182-184). -/
def amountHelpBase : String :=
  "El primer valor que me pasas después del comando tiene que ser el valor de lo " ++
  "que pagaste. \n\n También podés especificar un tipo de cambio con el codigo y " ++
  " monto, por ejemplo 40u para 40 dolares (o usd40). \n Los códigos posibles son:"

/-- The two lines the invalid-amount loop appends for one currency-table
entry: `'\n - {k} ({v})'` then `'\n - {v}'`. -/
def currencyLine (p : String × String) : String :=
  "\n - " ++ p.1 ++ " (" ++ p.2 ++ ")" ++ "\n - " ++ p.2

/-- The invalid-amount message: the base help text, one pair of lines per
currency-table entry, and the offending remainder, exactly as the
`for k, v in CURRENCY.items(): text += ...` loop builds it. -/
def currencyErrText (tbl : List (String × String)) (amount_without_currency : String) : String :=
  (tbl.foldl (fun acc p => acc ++ currencyLine p) amountHelpBase)
  ++ ("\n\n El valor \"" ++ amount_without_currency ++ "\" no es un número válido.")

/-- The remainder used for numeric parsing:
`raw_amount.replace(value, '').replace(key, '')` with `key, value = ['', '']`
when no currency was detected. -/
def stripCurrency (tbl : List (String × String)) (raw : String) : String :=
  match detectCurrency tbl raw with
  | some (key, value) => pyReplace (pyReplace raw value "") key ""
  | none => pyReplace (pyReplace raw "" "") "" ""

/-- `get_amount_and_currency(raw_amount)`: detect a currency, strip its code
and symbol, parse the remainder (comma as decimal separator) as a `Decimal`,
and convert with the most recent stored rate when one was found.  `perr`
carries the `ParameterError` message raised on `decimal.InvalidOperation`
during construction; the conversion multiplication sits outside the `try`,
so its `InvalidOperation` (signaling NaN, or infinity times a zero rate) is
an uncaught `fault`. -/
def get_amount_and_currency (tbl : List (String × String)) (rates : String → Option ExRate)
    (raw_amount : String) : PyResult (PyDecimal × Option ExRate × PyDecimal) :=
  let exchange_rate : Option ExRate :=
    match detectCurrency tbl raw_amount with
    | some (key, _) => rates key
    | none => none
  let amount_without_currency := stripCurrency tbl raw_amount
  match parsePyDecimal (pyReplace amount_without_currency "," ".") with
  | none => .perr (currencyErrText tbl amount_without_currency)
  | some original_amount =>
      match exchange_rate with
      | some xr =>
          match pyDecMul original_amount xr.rate with
          | some amount => .ok (amount, some xr, original_amount)
          | none => .fault
      | none => .ok (original_amount, none, original_amount)

/-- A `Tag` row, unique per (name, group); `Tag.objects.get_or_create(name=…,
group=…)` is modelled as returning exactly this pair. -/
structure Tag where
  name : String
  group : String
deriving DecidableEq, Repr

/-- Extraction of one special argument from the parameter list:
`argument_position = params.index(argument); params.pop(argument_position);
data[argument] = params.pop(argument_position)`.  `some (none, params)`
models the `ValueError` branch (keyword absent), `none` models the
`IndexError` branch (keyword present with no following value). -/
def extractArg (kw : String) (params : List String) : Option (Option String × List String) :=
  match params.findIdx? (· == kw) with
  | none => some (none, params)
  | some i =>
      match (params.eraseIdx i).get? i with
      | none => none
      | some v => some (some v, (params.eraseIdx i).eraseIdx i)

/-- Help text for the `dd` special argument (`utils.py` line 94). -/
def ddHelpText : String :=
  "Colocar la fecha en la que se generó el gasto después del argumento \"dd\""

/-- Help text for the `tt` special argument (`utils.py` lines 95-97). -/
def ttHelpText : String :=
  "Luego de \"tt\" colocar el nombre de la/las etiqueta/s para el gasto que estás " ++
  "cargando. Podés ingresar más de una etiqueta separando los nombres por comas (sin " ++
  "espacio)."

/-- The `for argument, text in special_arguments.items(): ...` loop:
`dd` is processed first, then `tt` (dict insertion order), each raising
`ParameterError` with its own help text on `IndexError`. -/
def extractModifiers (params : List String) :
    Except String (Option String × Option String × List String) :=
  match extractArg "dd" params with
  | none => .error ddHelpText
  | some (dv, params1) =>
      match extractArg "tt" params1 with
      | none => .error ttHelpText
      | some (tv, params2) => .ok (dv, tv, params2)

/-- Day field of `strptime`'s `%d`: `3[01]|[12]\d|0[1-9]|[1-9]| [1-9]`. -/
def parseDayTok (s : String) : Option Nat :=
  match s.data with
  | [c] => if '1' ≤ c ∧ c ≤ '9' then some (c.toNat - 48) else none
  | [' ', c] => if '1' ≤ c ∧ c ≤ '9' then some (c.toNat - 48) else none
  | [c1, c2] =>
      if c1.isDigit ∧ c2.isDigit then
        let v := (c1.toNat - 48) * 10 + (c2.toNat - 48)
        if 1 ≤ v ∧ v ≤ 31 then some v else none
      else none
  | _ => none

/-- Month field of `strptime`'s `%m`: `1[0-2]|0[1-9]|[1-9]`. -/
def parseMonthTok (s : String) : Option Nat :=
  match s.data with
  | [c] => if '1' ≤ c ∧ c ≤ '9' then some (c.toNat - 48) else none
  | [c1, c2] =>
      if c1.isDigit ∧ c2.isDigit then
        let v := (c1.toNat - 48) * 10 + (c2.toNat - 48)
        if 1 ≤ v ∧ v ≤ 12 then some v else none
      else none
  | _ => none

/-- Two-digit year field of `strptime`'s `%y`, with the POSIX pivot:
69-99 map to 1969-1999, 00-68 to 2000-2068. -/
def parseYearTok (s : String) : Option Nat :=
  match s.data with
  | [c1, c2] =>
      if c1.isDigit ∧ c2.isDigit then
        let v := (c1.toNat - 48) * 10 + (c2.toNat - 48)
        some (if v ≤ 68 then 2000 + v else 1900 + v)
      else none
  | _ => none

/-- Gregorian leap-year rule used by `datetime`. -/
def isLeap (y : Nat) : Bool := y % 4 = 0 ∧ (y % 100 ≠ 0 ∨ y % 400 = 0)

/-- Number of days in a month, as `datetime.date` validates it. -/
def daysInMonth (y m : Nat) : Nat :=
  if m = 2 then (if isLeap y then 29 else 28)
  else if m = 4 ∨ m = 6 ∨ m = 9 ∨ m = 11 then 30
  else 31

/-- `dt.datetime.strptime(s, '%d/%m/%y').date()`: the three fields separated
by literal slashes, the whole string consumed, and the day valid for the
month (otherwise `datetime` raises `ValueError`). -/
def parse_ddmmyy (s : String) : Option Date :=
  match (chSplit '/' s.data).map (fun cs => (⟨cs⟩ : String)) with
  | [ds, ms, ys] =>
      match parseDayTok ds, parseMonthTok ms, parseYearTok ys with
      | some d, some m, some y =>
          if d ≤ daysInMonth y m then some ⟨y, m, d⟩ else none
      | _, _, _ => none
  | _ => none

/-- Message raised when the `dd` value fails to parse (`utils.py` 137-138). -/
def dateFormatText : String :=
  "Luego del parámetro \"dd\" necesito que ingreses la fecha del gasto que estás " ++
  "cargando con formato \"dd/mm/yy\" (Por ejemplo 28/01/99)."

/-- Message raised on an empty parameter list (`utils.py` line 103). -/
def needAmountText : String :=
  "Necesito que me digas cuanto pagaste y una descripción del gasto."

/-- Message raised when no description tokens remain (`utils.py` line 128). -/
def noDescText : String :=
  "Necesito que agregues en el comando una descripción del gasto"

/-- The `if data['dd']: ... else: data['dd'] = dt.date.today()` block:
a truthy (non-empty) value is parsed with `%d/%m/%y`, a falsy one defaults
to the current date. -/
def resolveDate (today : Date) (dv : Option String) : Except String Date :=
  match dv with
  | some s =>
      if s = "" then .ok today
      else
        match parse_ddmmyy s with
        | some d => .ok d
        | none => .error dateFormatText
  | none => .ok today

/-- The `if data['tt']: for t in data['tt'].split(','):
Tag.objects.get_or_create(name=data['tt'], group=group)` block: one
get-or-create per comma-separated piece, each using the whole unsplit
string as the tag name. -/
def resolveTags (group : String) (tv : Option String) : List Tag :=
  match tv with
  | some s => if s = "" then [] else (pySplit ',' s).map fun _ => Tag.mk s group
  | none => []

/-- The dict returned by `decode_expense_params`. -/
structure DecodedData where
  amount : PyDecimal
  exchange_rate : Option ExRate
  original_amount : PyDecimal
  dd : Date
  tt : List Tag
  description : String
deriving DecidableEq, Repr

/-- `decode_expense_params(params, group)`: amount first, then the special
arguments `dd` and `tt`, then the description (joined with spaces), the
date, and the tags; every `raise ParameterError(text)` becomes `perr text`,
and an uncaught decimal fault in the amount conversion propagates. -/
def decode_expense_params (tbl : List (String × String)) (rates : String → Option ExRate)
    (today : Date) (group : String) (params : List String) : PyResult DecodedData :=
  match params with
  | [] => .perr needAmountText
  | amount_received :: rest =>
      match get_amount_and_currency tbl rates amount_received with
      | .perr e => .perr e
      | .fault => .fault
      | .ok (amount, exchange_rate, original_amount) =>
          match extractModifiers rest with
          | .error e => .perr e
          | .ok (dv, tv, remaining) =>
              if remaining = [] then .perr noDescText
              else
                let description := pyJoin " " remaining
                match resolveDate today dv with
                | .error e => .perr e
                | .ok dd =>
                    .ok ⟨amount, exchange_rate, original_amount, dd,
                         resolveTags group tv, description⟩

/-- An `Expense` row as `new_expense` fills it in. -/
structure Expense where
  user : String
  group : String
  description : String
  amount : PyDecimal
  date : Date
  original_currency : Option String
  original_amount : Option PyDecimal
  tags : List Tag
deriving DecidableEq, Repr

/-- Rendering of rational amounts inside response strings; abstracts the
digit formatting of `str(Decimal)`, which no verified claim depends on. -/
def decStr (q : ℚ) : String := toString q

/-- Zero-padding of a date component to two digits. -/
def pad2 (n : Nat) : String := if n < 10 then "0" ++ toString n else toString n

/-- `str(datetime.date)`: ISO `YYYY-MM-DD`. -/
def dateStr (d : Date) : String :=
  toString d.year ++ "-" ++ pad2 d.month ++ "-" ++ pad2 d.day

/-- Modelled from the spec: the display form of a saved record used by
`'Se guardó tu gasto {expense}'`; `Expense.__str__` lives in
`expenses/models.py`, outside the parser module, and the spec only calls
the result "a confirmation string describing the saved record". -/
def expenseText (e : Expense) : String := e.description

/-- The conversion notice prepended when an exchange rate was used
(`utils.py` lines 69-74); `CURRENCY[...]` is the display lookup in the
currency table. -/
def conversionNotice (tbl : List (String × String)) (xr : ExRate) : String :=
  "Tu gasto se convirtió a " ++ ((tbl.lookup xr.currency).getD "") ++
  " usando un tipo de cambio = $" ++ decStr xr.rate ++ " (cargado el " ++
  dateStr xr.date ++ ").\n\n"

/-- `new_expense(params, user, group)`: decode the parameters, build the
`Expense` row (setting `original_currency` / `original_amount` only when an
exchange rate was resolved), attach the tags, and return the response text;
a `ParameterError` is caught and returned as text with no record created,
while an uncaught decimal fault propagates past the handler. -/
def new_expense (tbl : List (String × String)) (rates : String → Option ExRate)
    (today : Date) (user group : String) (params : List String) :
    PyResult (Option Expense × String) :=
  match decode_expense_params tbl rates today group params with
  | .perr e => .ok (none, e)
  | .fault => .fault
  | .ok data =>
      let base : Expense :=
        { user := user, group := group, description := data.description,
          amount := data.amount, date := data.dd,
          original_currency := none, original_amount := none, tags := data.tt }
      match data.exchange_rate with
      | some xr =>
          let e := { base with
            original_currency := some xr.currency,
            original_amount := some data.original_amount }
          .ok (some e, conversionNotice tbl xr ++ ("Se guardó tu gasto " ++ expenseText e))
      | none => .ok (some base, "Se guardó tu gasto " ++ expenseText base)

/-- A stored expense row as the report aggregator reads it back: the stored
amounts are finite base-currency decimals, abstracted to exact rationals. -/
structure StoredExpense where
  user : String
  amount : ℚ
  date : Date
deriving DecidableEq, Repr

/-- Python `round(q)` on a `Decimal`: nearest integer, ties to even. -/
def roundHalfEvenInt (q : ℚ) : ℤ :=
  let f := ⌊q⌋
  let r := q - f
  if r < 1 / 2 then f else if 1 / 2 < r then f + 1 else if f % 2 = 0 then f else f + 1

/-- Python `round(q, 2)` on a `Decimal`: half-even rounding to two places. -/
def round2 (q : ℚ) : ℚ := (roundHalfEvenInt (q * 100) : ℚ) / 100

/-- `show_expenses(group, *params)`: the fixed message when the group has no
expenses; otherwise the date-range header and total, plus one line per
member (with subtotal and integer percentage) when the group has more than
one member.  The stored rows arrive in descending date order, so
`queryset.last()` — the oldest row — is `getLast?`.  The result is `none`
exactly when `round(total/total_expenses*100)` divides by zero
(`decimal.DivisionByZero`, an uncaught fault): the source has no guard. -/
def show_expenses (users : List String) (expenses : List StoredExpense) : Option String :=
  match expenses.getLast? with
  | none => some "Todavía no hay gastos cargados en este grupo"
  | some first_expense =>
      let total_expenses := round2 ((expenses.map StoredExpense.amount).sum)
      let user_expenses : List (String × ℚ) :=
        if users.length > 1 then
          users.map fun u =>
            (u, round2 (((expenses.filter fun e => e.user == u).map
                  StoredExpense.amount).sum))
        else []
      let header :=
        "Gastos desde el " ++ dateStr first_expense.date ++ " hasta ahora" ++
        "\n\nTotal: $" ++ decStr total_expenses ++ "\n"
      user_expenses.foldl
        (fun acc p =>
          match acc with
          | none => none
          | some s =>
              if total_expenses = 0 then none
              else some (s ++ "\n\n" ++ p.1 ++ ": $" ++ decStr p.2 ++ " (" ++
                toString (roundHalfEvenInt (p.2 / total_expenses * 100)) ++ "%)"))
        (some header)

/-! Helper lemmas shared by the claim theorems. -/

/-- The numeric remainder the amount parser feeds to `Decimal`: currency
stripping followed by the comma-to-period replacement. -/
def amountRemainder (tbl : List (String × String)) (a : String) : String :=
  pyReplace (stripCurrency tbl a) "," "."

/-- An amount token is valid when that remainder parses as a `Decimal`. -/
def amountTokValid (tbl : List (String × String)) (a : String) : Prop :=
  ∃ d, parsePyDecimal (amountRemainder tbl a) = some d

theorem mem_dropWhile_of_not {c : Char} {p : Char → Bool} :
    ∀ {cs : List Char}, c ∈ cs → p c = false → c ∈ cs.dropWhile p := by
  intro cs hm hp
  induction cs with
  | nil => cases hm
  | cons a t ih =>
      by_cases ha : p a = true
      · rw [List.dropWhile_cons_of_pos ha]
        cases List.mem_cons.mp hm with
        | inl h => rw [h] at hp; rw [hp] at ha; cases ha
        | inr h => exact ih h
      · rw [List.dropWhile_cons_of_neg ha]
        exact hm

theorem mem_trimWs {c : Char} {cs : List Char} (hm : c ∈ cs)
    (hw : pyWsChar c = false) : c ∈ trimWs cs := by
  unfold trimWs
  rw [List.mem_reverse]
  apply mem_dropWhile_of_not _ hw
  rw [List.mem_reverse]
  exact mem_dropWhile_of_not hm hw

theorem parsePyDecimal_allowed {s : String} {d : PyDecimal}
    (h : parsePyDecimal s = some d) :
    ∀ c ∈ (trimWs s.data).filter (fun c => c ≠ '_'), decAllowedChar c = true := by
  intro c hc
  unfold parsePyDecimal at h
  by_cases hall : ((trimWs s.data).filter (fun c => c ≠ '_')).all decAllowedChar = true
  · exact List.all_eq_true.mp hall c hc
  · rw [if_neg hall] at h; cases h

theorem parsePyDecimal_no_comma {s : String} {d : PyDecimal}
    (h : parsePyDecimal s = some d) : ',' ∉ s.data := by
  intro hmem
  have hmem' : ',' ∈ (trimWs s.data).filter (fun c => c ≠ '_') :=
    List.mem_filter.mpr ⟨mem_trimWs hmem (by decide), by decide⟩
  have hall := parsePyDecimal_allowed h ',' hmem'
  cases hall

theorem replGo_single_not_mem {c : Char} (rep : List Char) :
    ∀ (fuel : Nat) (cs : List Char), c ∉ cs → replGo [c] rep fuel cs = cs := by
  intro fuel
  induction fuel with
  | zero => intro cs _; cases cs <;> rfl
  | succ n ih =>
      intro cs hm
      cases cs with
      | nil => rfl
      | cons a t =>
          have ha : ¬(a = c) := fun h => hm (h ▸ List.mem_cons_self a t)
          have hpre : [c].isPrefixOf (a :: t) = false := by
            simp [List.isPrefixOf]
            exact fun h => ha h.symm
          rw [replGo, hpre]
          simp only [Bool.false_eq_true, if_false]
          rw [ih t fun h => hm (List.mem_cons_of_mem a h)]

theorem pyReplace_comma_noop {s : String} (h : ',' ∉ s.data) :
    pyReplace s "," "." = s := by
  unfold pyReplace
  rw [if_neg (by decide)]
  show String.mk (replGo [','] ['.'] s.data.length s.data) = s
  rw [replGo_single_not_mem _ _ _ h]

theorem pyReplace_empty_pat (s rep : String) : pyReplace s "" rep = s := by
  unfold pyReplace
  rw [if_pos rfl]

theorem get_amount_error_iff (tbl : List (String × String))
    (rates : String → Option ExRate) (raw : String) :
    (∃ e, get_amount_and_currency tbl rates raw = .perr e) ↔
      parsePyDecimal (amountRemainder tbl raw) = none := by
  simp only [get_amount_and_currency, amountRemainder]
  cases hp : parsePyDecimal (pyReplace (stripCurrency tbl raw) "," ".") with
  | none => simp
  | some d =>
      cases hx : (match detectCurrency tbl raw with
        | some (key, _) => rates key
        | none => none : Option ExRate) with
      | none => simp [hx]
      | some xr =>
          cases hm : pyDecMul d xr.rate with
          | none => simp [hx, hm]
          | some amount => simp [hx, hm]

theorem get_amount_ok_rel {tbl : List (String × String)}
    {rates : String → Option ExRate} {raw : String} {a : PyDecimal}
    {x : Option ExRate} {o : PyDecimal}
    (h : get_amount_and_currency tbl rates raw = .ok (a, x, o)) :
    (∀ xr, x = some xr → pyDecMul o xr.rate = some a) ∧ (x = none → a = o) := by
  simp only [get_amount_and_currency] at h
  split at h
  · cases h
  · split at h
    · split at h
      · rename_i amount hm
        simp only [PyResult.ok.injEq, Prod.mk.injEq] at h
        obtain ⟨ha, hx, ho⟩ := h
        subst ha; subst hx; subst ho
        refine ⟨fun xr hxr => ?_, fun hn => ?_⟩
        · cases hxr; exact hm
        · cases hn
      · cases h
    · simp only [PyResult.ok.injEq, Prod.mk.injEq] at h
      obtain ⟨ha, hx, ho⟩ := h
      subst ha; subst hx; subst ho
      refine ⟨fun xr hxr => ?_, fun _ => rfl⟩
      cases hxr

/-- C1: the specification requires `show_expenses` to guard the per-member
percentage `round(subtotal / total * 100)` when a multi-member group's
expenses sum to exactly 0, but the source divides with no guard: a
two-member group whose recorded expenses sum to 0 reaches
`decimal.DivisionByZero` (modelled as `none`) instead of returning text. -/
theorem C1_zero_total_division_fault :
    show_expenses ["a", "b"] [⟨"a", 0, ⟨2020, 1, 1⟩⟩, ⟨"b", 0, ⟨2020, 1, 2⟩⟩] = none := by
  norm_num [show_expenses, round2, roundHalfEvenInt, List.getLast?, List.getLast]

/-- C4: a token that is a valid decimal and carries no currency code or
symbol of the table as a prefix or suffix parses to its own decimal value,
with no exchange rate and no conversion applied. -/
theorem C4_plain_decimal_no_conversion
    (tbl : List (String × String)) (rates : String → Option ExRate)
    (s : String) (d : PyDecimal)
    (hval : parsePyDecimal s = some d)
    (hnc : ∀ p ∈ tbl, strStarts s p.1 = false ∧ strStarts s p.2 = false ∧
      strEnds s p.1 = false ∧ strEnds s p.2 = false) :
    get_amount_and_currency tbl rates s = .ok (d, none, d) := by
  have hdet : detectCurrency tbl s = none := by
    apply List.find?_eq_none.mpr
    intro p hp
    obtain ⟨h1, h2, h3, h4⟩ := hnc p hp
    simp [h1, h2, h3, h4]
  have hstrip : stripCurrency tbl s = s := by
    unfold stripCurrency
    rw [hdet, pyReplace_empty_pat, pyReplace_empty_pat]
  have hcomma : pyReplace s "," "." = s :=
    pyReplace_comma_noop (parsePyDecimal_no_comma hval)
  simp only [get_amount_and_currency, hdet, hstrip, hcomma, hval]

/-- Witness for C4 at the token `"10"` and the table `[("usd", "u")]`. -/
theorem C4_plain_decimal_no_conversion_witness :
    parsePyDecimal "10" = some (.fin 10) ∧
      get_amount_and_currency [("usd", "u")] (fun _ => none) "10" =
        .ok (.fin 10, none, .fin 10) := by
  have hval : parsePyDecimal "10" = some (.fin 10) := by
    have h : parsePyDecimal "10" = some (.fin ((10 : ℚ) * (10 : ℚ) ^ ((0 : ℤ) - 0))) := rfl
    rw [h]; norm_num
  refine ⟨hval, C4_plain_decimal_no_conversion _ _ _ _ hval ?_⟩
  intro p hp
  have hp' : p = ("usd", "u") := by simpa using hp
  subst hp'
  refine ⟨?_, ?_, ?_, ?_⟩ <;> decide

/-- C5: `"10u"` with a stored rate of 3.5 for the currency with symbol `u`
converts to amount 35 while keeping original amount 10 and the rate row;
and in general, whenever a rate is resolved, the returned amount is
`original_amount * rate.rate`. -/
theorem C5_rate_conversion :
    (get_amount_and_currency [("usd", "u")]
        (fun k => if k = "usd" then some ⟨"usd", 7 / 2, ⟨2020, 1, 1⟩⟩ else none) "10u" =
      .ok (.fin 35, some ⟨"usd", 7 / 2, ⟨2020, 1, 1⟩⟩, .fin 10)) ∧
    (∀ tbl rates raw a xr o,
      get_amount_and_currency tbl rates raw = .ok (a, some xr, o) →
      pyDecMul o xr.rate = some a) := by
  constructor
  · have h : get_amount_and_currency [("usd", "u")]
        (fun k => if k = "usd" then some ⟨"usd", 7 / 2, ⟨2020, 1, 1⟩⟩ else none) "10u" =
        .ok (.fin (((10 : ℚ) * (10 : ℚ) ^ ((0 : ℤ) - 0)) * (7 / 2)),
          some ⟨"usd", 7 / 2, ⟨2020, 1, 1⟩⟩,
          .fin ((10 : ℚ) * (10 : ℚ) ^ ((0 : ℤ) - 0))) := rfl
    rw [h]
    norm_num
  · intro tbl rates raw a xr o h
    exact (get_amount_ok_rel h).1 xr rfl

/-- Witness for C5's general conversion law, discharged with its own
concrete instance. -/
theorem C5_rate_conversion_witness :
    pyDecMul (.fin 10) (ExRate.mk "usd" (7 / 2) ⟨2020, 1, 1⟩).rate =
      some (PyDecimal.fin 35) :=
  C5_rate_conversion.2 _ _ _ _ _ _ C5_rate_conversion.1

/-- C9: when a currency is detected, the numeric remainder is the token with
every occurrence of the symbol removed and then every occurrence of the code
removed — interior occurrences included; whatever the parser returns as
`original_amount` is the `Decimal` parse of exactly that fully stripped
string, and the token `"1u0u"` with symbol `u` therefore yields 10. -/
theorem C9_strip_removes_all_occurrences :
    (∀ tbl raw k v,
        detectCurrency tbl raw = some (k, v) →
        stripCurrency tbl raw = pyReplace (pyReplace raw v "") k "") ∧
    (∀ tbl (rates : String → Option ExRate) raw a xr o,
        get_amount_and_currency tbl rates raw = .ok (a, xr, o) →
        parsePyDecimal (pyReplace (stripCurrency tbl raw) "," ".") = some o) ∧
    get_amount_and_currency [("usd", "u")] (fun _ => none) "1u0u" =
      .ok (.fin 10, none, .fin 10) := by
  refine ⟨?_, ?_, ?_⟩
  · intro tbl raw k v hdet
    unfold stripCurrency
    rw [hdet]
  · intro tbl rates raw a xr o h
    simp only [get_amount_and_currency] at h
    split at h
    · cases h
    · rename_i d hp
      split at h
      · split at h
        · simp only [PyResult.ok.injEq, Prod.mk.injEq] at h
          obtain ⟨-, -, ho⟩ := h
          subst ho
          exact hp
        · cases h
      · simp only [PyResult.ok.injEq, Prod.mk.injEq] at h
        obtain ⟨-, -, ho⟩ := h
        subst ho
        exact hp
  · have h : get_amount_and_currency [("usd", "u")] (fun _ => none) "1u0u" =
        .ok (.fin ((10 : ℚ) * (10 : ℚ) ^ ((0 : ℤ) - 0)), none,
          .fin ((10 : ℚ) * (10 : ℚ) ^ ((0 : ℤ) - 0))) := rfl
    rw [h]
    norm_num

/-- Witness for C9's original-amount law at the token `"1u0u"`. -/
theorem C9_strip_removes_all_occurrences_witness :
    parsePyDecimal (pyReplace (stripCurrency [("usd", "u")] "1u0u") "," ".") =
      some (.fin 10) := by
  have h := C9_strip_removes_all_occurrences.2.1 [("usd", "u")] (fun _ => none) "1u0u"
    (.fin ((10 : ℚ) * (10 : ℚ) ^ ((0 : ℤ) - 0))) none
    (.fin ((10 : ℚ) * (10 : ℚ) ^ ((0 : ℤ) - 0))) rfl
  rw [h]
  norm_num

theorem infix_append_right {l m : List Char} (y : List Char) (h : l <:+: m) :
    l <:+: m ++ y := by
  obtain ⟨s, t, rfl⟩ := h
  exact ⟨s, t ++ y, by simp⟩

theorem infix_append_left {l m : List Char} (x : List Char) (h : l <:+: m) :
    l <:+: x ++ m := by
  obtain ⟨s, t, rfl⟩ := h
  exact ⟨x ++ s, t, by simp⟩

theorem currencyLine_has_code (p : String × String) :
    p.1.data <:+: (currencyLine p).data := by
  unfold currencyLine
  refine ⟨"\n - ".data,
    (" (" ++ p.2 ++ ")" ++ "\n - " ++ p.2).data, ?_⟩
  simp [String.data_append]

theorem currencyLine_has_symbol (p : String × String) :
    p.2.data <:+: (currencyLine p).data := by
  unfold currencyLine
  refine ⟨("\n - " ++ p.1 ++ " (" ++ p.2 ++ ")" ++ "\n - ").data, [], ?_⟩
  simp [String.data_append]

theorem currencyFold_grows {l : List Char} :
    ∀ (t : List (String × String)) (acc : String), l <:+: acc.data →
      l <:+: (t.foldl (fun acc p => acc ++ currencyLine p) acc).data := by
  intro t
  induction t with
  | nil => intro acc h; exact h
  | cons q rest ih =>
      intro acc h
      rw [List.foldl_cons]
      apply ih
      rw [String.data_append]
      exact infix_append_right _ h

theorem currencyFold_has {p : String × String} {l : List Char}
    (hl : l <:+: (currencyLine p).data) :
    ∀ (t : List (String × String)) (acc : String), p ∈ t →
      l <:+: (t.foldl (fun acc p => acc ++ currencyLine p) acc).data := by
  intro t
  induction t with
  | nil => intro acc hp; cases hp
  | cons q rest ih =>
      intro acc hp
      rw [List.foldl_cons]
      cases List.mem_cons.mp hp with
      | inl h =>
          subst h
          apply currencyFold_grows
          rw [String.data_append]
          exact infix_append_left _ hl
      | inr h => exact ih _ h

theorem get_amount_error_form {tbl : List (String × String)}
    {rates : String → Option ExRate} {raw : String} {e : String}
    (h : get_amount_and_currency tbl rates raw = .perr e) :
    e = currencyErrText tbl (stripCurrency tbl raw) := by
  simp only [get_amount_and_currency] at h
  split at h
  · cases h; rfl
  · split at h
    · split at h <;> cases h
    · cases h

/-- C6: whenever the stripped remainder of an amount token is not a valid
decimal, the parser fails, and the `ParameterError` message it fails with
contains every currency code and every currency symbol of the table. -/
theorem C6_error_lists_all_currencies :
    (∀ tbl rates raw,
        (∃ e, get_amount_and_currency tbl rates raw = .perr e) ↔
          parsePyDecimal (amountRemainder tbl raw) = none) ∧
    (∀ tbl (rates : String → Option ExRate) raw e,
        get_amount_and_currency tbl rates raw = .perr e →
        ∀ p ∈ tbl, p.1.data <:+: e.data ∧ p.2.data <:+: e.data) := by
  constructor
  · exact get_amount_error_iff
  · intro tbl rates raw e h p hp
    rw [get_amount_error_form h]
    unfold currencyErrText
    rw [String.data_append]
    constructor
    · exact infix_append_right _
        (currencyFold_has (currencyLine_has_code p) tbl _ hp)
    · exact infix_append_right _
        (currencyFold_has (currencyLine_has_symbol p) tbl _ hp)

/-- Witness for C6 at the token `"abcu"` and the table `[("usd", "u")]`. -/
theorem C6_error_lists_all_currencies_witness :
    "usd".data <:+: (currencyErrText [("usd", "u")] "abc").data ∧
      "u".data <:+: (currencyErrText [("usd", "u")] "abc").data :=
  C6_error_lists_all_currencies.2 [("usd", "u")] (fun _ => none) "abcu"
    (currencyErrText [("usd", "u")] "abc") rfl ("usd", "u") (by decide)

theorem chSplit_ne_nil (sep : Char) (cs : List Char) : chSplit sep cs ≠ [] := by
  cases cs with
  | nil => simp [chSplit]
  | cons c rest =>
      rw [chSplit]
      split
      · split <;> simp
      · split <;> simp

theorem chSplit_length (sep : Char) (cs : List Char) :
    (chSplit sep cs).length = cs.count sep + 1 := by
  induction cs with
  | nil => rfl
  | cons c rest ih =>
      rw [chSplit]
      cases hsp : chSplit sep rest with
      | nil => exact absurd hsp (chSplit_ne_nil sep rest)
      | cons h t =>
          rw [hsp] at ih
          simp only [List.length_cons] at ih
          by_cases hc : c = sep
          · subst hc
            simp [List.count_cons]
            omega
          · have hbeq : (c == sep) = false := beq_eq_false_iff_ne.mpr hc
            simp [List.count_cons, hc, hbeq]
            omega

/-- C2: when the `tt` modifier value is a non-empty string with k
comma-separated names (k = commas + 1 = `pySplit` length), the decoded tag
list has exactly k entries and every entry was get-or-created with the whole
unsplit `tt` string as its name, scoped to the group — not the split name. -/
theorem C2_tags_use_whole_unsplit_string :
    (∀ s : String, (pySplit ',' s).length = s.data.count ',' + 1) ∧
    (∀ tbl rates today g a rest dv rem s d,
        extractModifiers rest = .ok (dv, some s, rem) →
        s ≠ "" →
        decode_expense_params tbl rates today g (a :: rest) = .ok d →
        d.tt = (pySplit ',' s).map (fun _ => Tag.mk s g) ∧
          d.tt.length = (pySplit ',' s).length ∧
          ∀ t ∈ d.tt, t.name = s ∧ t.group = g) := by
  constructor
  · intro s
    simp [pySplit, chSplit_length]
  · intro tbl rates today g a rest dv rem s d hem hs hdec
    simp only [decode_expense_params] at hdec
    split at hdec
    · cases hdec
    · cases hdec
    · split at hdec
      · cases hdec
      · rename_i dv' tv' rem' hem'
        rw [hem] at hem'
        simp only [Except.ok.injEq, Prod.mk.injEq] at hem'
        obtain ⟨hdv, htv, hrem⟩ := hem'
        subst hdv; subst htv; subst hrem
        split at hdec
        · cases hdec
        · split at hdec
          · cases hdec
          · rename_i dd hdd
            simp only [PyResult.ok.injEq] at hdec
            subst hdec
            refine ⟨?_, ?_, ?_⟩
            · simp [resolveTags, hs]
            · simp [resolveTags, hs]
            · intro t ht
              simp only [resolveTags, if_neg hs, List.mem_map] at ht
              obtain ⟨-, -, rfl⟩ := ht
              exact ⟨rfl, rfl⟩

/-- Witness for C2 at the command `["10", "tt", "a,b", "x"]`: the value
`"a,b"` has two comma-separated names but both tags carry the whole string
`"a,b"`. -/
theorem C2_tags_use_whole_unsplit_string_witness :
    (DecodedData.tt ⟨.fin ((10 : ℚ) * (10 : ℚ) ^ ((0 : ℤ) - 0)), none,
        .fin ((10 : ℚ) * (10 : ℚ) ^ ((0 : ℤ) - 0)), ⟨2020, 1, 1⟩,
        [⟨"a,b", "g"⟩, ⟨"a,b", "g"⟩], "x"⟩).length = (pySplit ',' "a,b").length ∧
      ∀ t ∈ DecodedData.tt ⟨.fin ((10 : ℚ) * (10 : ℚ) ^ ((0 : ℤ) - 0)), none,
        .fin ((10 : ℚ) * (10 : ℚ) ^ ((0 : ℤ) - 0)), ⟨2020, 1, 1⟩,
        [⟨"a,b", "g"⟩, ⟨"a,b", "g"⟩], "x"⟩, t.name = "a,b" ∧ t.group = "g" := by
  have h := C2_tags_use_whole_unsplit_string.2 [] (fun _ => none) ⟨2020, 1, 1⟩ "g"
    "10" ["tt", "a,b", "x"] none ["x"] "a,b" _ rfl (by decide) rfl
  exact ⟨h.2.1, h.2.2⟩

theorem findIdx?_append_first {kw : String} :
    ∀ (l1 l2 : List String) (i : Nat), kw ∉ l1 →
      List.findIdx? (· == kw) (l1 ++ kw :: l2) i = some (i + l1.length) := by
  intro l1
  induction l1 with
  | nil =>
      intro l2 i _
      simp [List.findIdx?]
  | cons a t ih =>
      intro l2 i hmem
      have ha : (a == kw) = false :=
        beq_eq_false_iff_ne.mpr fun h => hmem (h ▸ List.mem_cons_self a t)
      rw [List.cons_append, List.findIdx?]
      simp only [ha, Bool.false_eq_true, if_false]
      rw [ih l2 (i + 1) fun h => hmem (List.mem_cons_of_mem a h)]
      simp only [List.length_cons]
      congr 1
      omega

theorem eraseIdx_append_middle {α : Type} :
    ∀ (l1 : List α) (x : α) (l2 : List α),
      (l1 ++ x :: l2).eraseIdx l1.length = l1 ++ l2 := by
  intro l1
  induction l1 with
  | nil => intro x l2; rfl
  | cons a t ih =>
      intro x l2
      simp only [List.cons_append, List.length_cons, List.eraseIdx, List.append_eq]
      rw [ih]

theorem get?_append_middle {α : Type} :
    ∀ (l1 : List α) (x : α) (l2 : List α),
      (l1 ++ x :: l2).get? l1.length = some x := by
  intro l1
  induction l1 with
  | nil => intro x l2; rfl
  | cons a t ih =>
      intro x l2
      simp only [List.cons_append, List.length_cons, List.get?, List.append_eq]
      rw [ih]

/-- C10: each modifier keyword is extracted by removing only its first
occurrence together with the immediately following token; a later occurrence
of the same keyword stays in the list and ends up inside the joined
description, as in `["10", "dd", "28/01/99", "x", "dd", "y"]` whose decoded
description is `"x dd y"`. -/
theorem C10_first_occurrence_only :
    (∀ (kw : String) (l1 : List String) (v : String) (l2 : List String),
        kw ∉ l1 →
        extractArg kw (l1 ++ kw :: v :: l2) = some (some v, l1 ++ l2)) ∧
    (∀ rates today g,
        ∃ d, decode_expense_params [] rates today g
            ["10", "dd", "28/01/99", "x", "dd", "y"] = .ok d ∧
          d.description = "x dd y" ∧ d.dd = ⟨1999, 1, 28⟩) := by
  constructor
  · intro kw l1 v l2 hmem
    unfold extractArg
    have hf := findIdx?_append_first l1 (v :: l2) 0 hmem
    rw [Nat.zero_add] at hf
    simp only [hf, eraseIdx_append_middle, get?_append_middle]
  · intro rates today g
    refine ⟨⟨.fin ((10 : ℚ) * (10 : ℚ) ^ ((0 : ℤ) - 0)), none,
      .fin ((10 : ℚ) * (10 : ℚ) ^ ((0 : ℤ) - 0)), ⟨1999, 1, 28⟩, [], "x dd y"⟩,
      rfl, rfl, rfl⟩

/-- Witness for C10's extraction law: the first `dd` and its value are
removed, the second `dd` stays in place. -/
theorem C10_first_occurrence_only_witness :
    extractArg "dd" ["a", "dd", "28/01/99", "dd", "b"] =
      some (some "28/01/99", ["a", "dd", "b"]) :=
  C10_first_occurrence_only.1 "dd" ["a"] "28/01/99" ["dd", "b"] (by decide)

theorem decode_ok_amount_rel {tbl : List (String × String)}
    {rates : String → Option ExRate} {today : Date} {g : String}
    {params : List String} {d : DecodedData}
    (h : decode_expense_params tbl rates today g params = .ok d) :
    (∀ xr, d.exchange_rate = some xr →
        pyDecMul d.original_amount xr.rate = some d.amount) ∧
      (d.exchange_rate = none → d.amount = d.original_amount) := by
  simp only [decode_expense_params] at h
  split at h
  · cases h
  · split at h
    · cases h
    · cases h
    · rename_i am x o hga
      split at h
      · cases h
      · rename_i dv tv rem hem
        split at h
        · cases h
        · split at h
          · cases h
          · rename_i dd hdd
            simp only [PyResult.ok.injEq] at h
            subst h
            exact get_amount_ok_rel hga

/-- C8: every expense record `new_expense` builds has `original_currency`
and `original_amount` both set exactly when an exchange rate was resolved
during parsing (both absent otherwise), and its `amount` field is the
base-currency value: `original_amount * rate.rate` with a rate, the parsed
amount itself without one. -/
theorem C8_original_fields_iff_rate :
    ∀ tbl rates today u g params e t,
      new_expense tbl rates today u g params = .ok (some e, t) →
      ∃ d, decode_expense_params tbl rates today g params = .ok d ∧
        (e.original_currency.isSome ↔ d.exchange_rate.isSome) ∧
        (e.original_amount.isSome ↔ d.exchange_rate.isSome) ∧
        (∀ xr, d.exchange_rate = some xr →
          e.original_currency = some xr.currency ∧
          e.original_amount = some d.original_amount ∧
          pyDecMul d.original_amount xr.rate = some e.amount) ∧
        (d.exchange_rate = none →
          e.original_currency = none ∧ e.original_amount = none ∧
          e.amount = d.original_amount) := by
  intro tbl rates today u g params e t h
  simp only [new_expense] at h
  split at h
  · simp at h
  · cases h
  · rename_i d hdec
    have hrel := decode_ok_amount_rel hdec
    refine ⟨d, hdec, ?_⟩
    split at h
    · rename_i xr hxr
      simp only [PyResult.ok.injEq, Prod.mk.injEq, Option.some.injEq] at h
      obtain ⟨he, -⟩ := h
      subst he
      refine ⟨by simp [hxr], by simp [hxr], fun xr' hxr' => ?_, fun hn => ?_⟩
      · rw [hxr] at hxr'
        cases hxr'
        exact ⟨rfl, rfl, hrel.1 xr hxr⟩
      · rw [hxr] at hn
        cases hn
    · rename_i hxr
      simp only [PyResult.ok.injEq, Prod.mk.injEq, Option.some.injEq] at h
      obtain ⟨he, -⟩ := h
      subst he
      refine ⟨by simp [hxr], by simp [hxr], fun xr' hxr' => ?_, fun hn => ?_⟩
      · rw [hxr] at hxr'
        cases hxr'
      · exact ⟨rfl, rfl, hrel.2 hxr⟩

/-- Witness for C8 at the command `["10", "lunch"]` with no currency. -/
theorem C8_original_fields_iff_rate_witness :
    ∃ d, decode_expense_params [] (fun _ => none) ⟨2020, 1, 1⟩ "g" ["10", "lunch"] = .ok d ∧
      ((Expense.mk "u" "g" "lunch" (.fin ((10 : ℚ) * (10 : ℚ) ^ ((0 : ℤ) - 0)))
          ⟨2020, 1, 1⟩ none none []).original_currency.isSome ↔ d.exchange_rate.isSome) ∧
      ((Expense.mk "u" "g" "lunch" (.fin ((10 : ℚ) * (10 : ℚ) ^ ((0 : ℤ) - 0)))
          ⟨2020, 1, 1⟩ none none []).original_amount.isSome ↔ d.exchange_rate.isSome) ∧
      (∀ xr, d.exchange_rate = some xr →
        (Expense.mk "u" "g" "lunch" (.fin ((10 : ℚ) * (10 : ℚ) ^ ((0 : ℤ) - 0)))
          ⟨2020, 1, 1⟩ none none []).original_currency = some xr.currency ∧
        (Expense.mk "u" "g" "lunch" (.fin ((10 : ℚ) * (10 : ℚ) ^ ((0 : ℤ) - 0)))
          ⟨2020, 1, 1⟩ none none []).original_amount = some d.original_amount ∧
        pyDecMul d.original_amount xr.rate =
          some (Expense.mk "u" "g" "lunch" (.fin ((10 : ℚ) * (10 : ℚ) ^ ((0 : ℤ) - 0)))
            ⟨2020, 1, 1⟩ none none []).amount) ∧
      (d.exchange_rate = none →
        (Expense.mk "u" "g" "lunch" (.fin ((10 : ℚ) * (10 : ℚ) ^ ((0 : ℤ) - 0)))
          ⟨2020, 1, 1⟩ none none []).original_currency = none ∧
        (Expense.mk "u" "g" "lunch" (.fin ((10 : ℚ) * (10 : ℚ) ^ ((0 : ℤ) - 0)))
          ⟨2020, 1, 1⟩ none none []).original_amount = none ∧
        (Expense.mk "u" "g" "lunch" (.fin ((10 : ℚ) * (10 : ℚ) ^ ((0 : ℤ) - 0)))
          ⟨2020, 1, 1⟩ none none []).amount = d.original_amount) :=
  C8_original_fields_iff_rate [] (fun _ => none) ⟨2020, 1, 1⟩ "u" "g" ["10", "lunch"]
    (Expense.mk "u" "g" "lunch" (.fin ((10 : ℚ) * (10 : ℚ) ^ ((0 : ℤ) - 0)))
      ⟨2020, 1, 1⟩ none none []) "Se guardó tu gasto lunch" rfl

